import Mathlib

/-!
Shallow embedding of qTox src/audio/audio.cpp (class Audio and its nested
class Audio::Private) for checking the natural-language specification.
Native OpenAL and Qt effects are modelled by explicit environment
parameters (success flags, reported sample or buffer counts) and by state
records mirroring the member variables of class Audio.  qreal values are
modelled as real numbers.
-/

namespace QTox

/-! ### Gain controller: class Audio::Private -/

/-- State record mirroring Audio::Private: the fields minInputGain,
maxInputGain, gain and gainFactor, all of C++ type qreal. -/
structure GainState where
  minInputGain : ℝ
  maxInputGain : ℝ
  gain : ℝ
  gainFactor : ℝ

/-- The Audio::Private constructor: minInputGain -30, maxInputGain 30,
gain 0, gainFactor 0. -/
def GainState.init : GainState := ⟨-30, 30, 0, 0⟩

/-- Qt qBound over reals: qBound(lo, v, hi) = qMax(lo, qMin(hi, v)). -/
noncomputable def qBoundR (lo v hi : ℝ) : ℝ := max lo (min v hi)

/-- The expression qPow(10.0, dB / 20.0): the linear amplitude factor of a
decibel value. -/
noncomputable def tenPow (dB : ℝ) : ℝ := (10 : ℝ) ^ (dB / 20)

/-- Audio::Private::setInputGain: gain := qBound(minInputGain, dB,
maxInputGain); gainFactor := qPow(10, gain / 20). -/
noncomputable def setInputGain (s : GainState) (dB : ℝ) : GainState :=
  let g := qBoundR s.minInputGain dB s.maxInputGain
  { s with gain := g, gainFactor := tenPow g }

/-- Audio::setMinInputGain: stores the new lower bound, nothing else. -/
def setMinInputGain (s : GainState) (dB : ℝ) : GainState :=
  { s with minInputGain := dB }

/-- Audio::setMaxInputGain: stores the new upper bound, nothing else. -/
def setMaxInputGain (s : GainState) (dB : ℝ) : GainState :=
  { s with maxInputGain := dB }

/-! ### Sample amplification in Audio::doCapture -/

/-- Lower bound of int16_t, the value std::numeric_limits of int16_t min. -/
def int16Min : ℤ := -32768

/-- Upper bound of int16_t, the value std::numeric_limits of int16_t max. -/
def int16Max : ℤ := 32767

/-- Qt qRound: rounding to the nearest integer, halves away from zero
(int(d + 0.5) for d >= 0, int(d - 0.5) for d < 0, where the int cast
truncates toward zero). -/
noncomputable def qRound (x : ℝ) : ℤ := if 0 ≤ x then ⌊x + 1 / 2⌋ else ⌈x - 1 / 2⌉

/-- Qt qBound over machine int values. -/
def qBoundZ (lo v hi : ℤ) : ℤ := max lo (min v hi)

/-- One sample of the gain loop of Audio::doCapture: ampPCM =
qBound(int16 min, qRound(buf[i] * gainFactor), int16 max); the final
static_cast to int16_t is the identity because the value is clamped into
range first. -/
noncomputable def ampPCM (factor : ℝ) (s : ℤ) : ℤ :=
  qBoundZ int16Min (qRound ((s : ℝ) * factor)) int16Max

/-! ### Input side: alInDev, inSubscriptions, subscribeInput, unsubscribeInput,
autoInitInput, initInput, cleanupInput -/

/-- Environment of the input-side native calls: whether the configured
descriptor is the literal string none, whether alcCaptureOpenDevice
succeeds, and whether alcCaptureCloseDevice returns ALC_TRUE. -/
structure InEnv where
  devIsNone : Bool
  openOk : Bool
  closeOk : Bool

/-- Input-side members of class Audio: alInDev (nullable handle, modelled
by a Bool), whether alcCaptureStart is in effect, and inSubscriptions. -/
structure InState where
  alInDev : Bool
  capturing : Bool
  inSubscriptions : ℕ

/-- Input-side fields as set by the Audio constructor: no device, zero
subscriptions. -/
def InState.init : InState := ⟨false, false, 0⟩

/-- Audio::initInput: with descriptor none, returns true without opening;
otherwise attempts alcCaptureOpenDevice, and on success sets the handle
and calls alcCaptureStart.  (The call to setInputGain with the persisted
gain is part of the separate GainState model.) -/
def initInput (env : InEnv) (s : InState) : Bool × InState :=
  if env.devIsNone then (true, s)
  else if env.openOk then (true, { s with alInDev := true, capturing := true })
  else (false, s)

/-- Audio::autoInitInput: already-open device short-circuits to true. -/
def autoInitInput (env : InEnv) (s : InState) : Bool × InState :=
  if s.alInDev then (true, s) else initInput env s

/-- Audio::subscribeInput: increment inSubscriptions only when
autoInitInput reports success. -/
def subscribeInput (env : InEnv) (s : InState) : InState :=
  let r := autoInitInput env s
  if r.1 then { r.2 with inSubscriptions := r.2.inSubscriptions + 1 } else r.2

/-- Audio::cleanupInput: early return when alInDev is null; otherwise
alcCaptureStop, then alInDev := nullptr only when alcCaptureCloseDevice
returned ALC_TRUE (on failure only a warning is printed and the handle is
left set). -/
def cleanupInput (env : InEnv) (s : InState) : InState :=
  if s.alInDev = false then s
  else
    let s1 := { s with capturing := false }
    if env.closeOk then { s1 with alInDev := false } else s1

/-- Audio::unsubscribeInput: early return at zero subscriptions; otherwise
decrement, and run cleanupInput when the count reaches zero. -/
def unsubscribeInput (env : InEnv) (s : InState) : InState :=
  if s.inSubscriptions = 0 then s
  else
    let s1 := { s with inSubscriptions := s.inSubscriptions - 1 }
    if s1.inSubscriptions = 0 then cleanupInput env s1 else s1

/-- Caller-visible input operations (the subscription API). -/
inductive InOp where
  | sub : InOp
  | unsub : InOp
deriving DecidableEq

/-- Dispatch one input operation. -/
def inStep (env : InEnv) (s : InState) : InOp → InState
  | InOp.sub => subscribeInput env s
  | InOp.unsub => unsubscribeInput env s

/-- Run a list of input operations from a given state. -/
def runInFrom (env : InEnv) (s : InState) (ops : List InOp) : InState :=
  ops.foldl (inStep env) s

/-- Run a list of input operations from the constructed state. -/
def runIn (env : InEnv) (ops : List InOp) : InState :=
  runInFrom env InState.init ops

/-- Well-behaved native environment for the input side: a real device that
opens and closes successfully. -/
def goodInEnv : InEnv := ⟨false, true, true⟩

/-- Number of subscribeInput calls in a list of operations. -/
def subsIn : List InOp → ℕ
  | [] => 0
  | InOp.sub :: r => subsIn r + 1
  | InOp.unsub :: r => subsIn r

/-- Number of unsubscribeInput calls in a list of operations. -/
def unsubsIn : List InOp → ℕ
  | [] => 0
  | InOp.sub :: r => unsubsIn r
  | InOp.unsub :: r => unsubsIn r + 1

/-- Balance condition of the claim: starting from a subscriptions, the
running count never goes negative, i.e. every initial segment has at most
a + (its subscribe count) unsubscribes. -/
def prefCond (a : ℕ) (ops : List InOp) : Prop :=
  ∀ n, n < ops.length + 1 → unsubsIn (ops.take n) ≤ a + subsIn (ops.take n)

instance (a : ℕ) (ops : List InOp) : Decidable (prefCond a ops) :=
  Nat.decidableBallLT (ops.length + 1) fun n _ =>
    unsubsIn (ops.take n) ≤ a + subsIn (ops.take n)

/-- Combined invariant of reachable input states under a well-behaved
environment: the device is open exactly when the count is positive, and
streaming tracks the handle. -/
def inInv (s : InState) : Prop :=
  (s.alInDev = true ↔ 0 < s.inSubscriptions) ∧ s.capturing = s.alInDev

/-! ### Capture tick: Audio::doCapture -/

/-- Frame geometry: AUDIO_FRAME_SAMPLE_COUNT and AUDIO_CHANNELS. -/
structure CapCfg where
  frameSamples : ℕ
  channels : ℕ

/-- Audio::doCapture, one tick.  Arguments past the configuration: the
gain factor, the alInDev handle, the subscription count, the sample count
the device reports through ALC_CAPTURE_SAMPLES, the device sample stream
and the read position in it.  Returns the emitted frame, when any, and
the new read position: an early return when no device or no subscriber,
an early return when fewer samples than AUDIO_FRAME_SAMPLE_COUNT are
available, and otherwise a read of exactly one frame through
alcCaptureSamples followed by per-sample gain amplification. -/
noncomputable def doCapture (cfg : CapCfg) (factor : ℝ) (alIn : Bool)
    (subs : ℕ) (avail : ℕ) (sample : ℕ → ℤ) (pos : ℕ) :
    Option (List ℤ) × ℕ :=
  if alIn = false ∨ subs = 0 then (none, pos)
  else if avail < cfg.frameSamples then (none, pos)
  else
    (some ((List.range (cfg.frameSamples * cfg.channels)).map fun i =>
        ampPCM factor (sample (pos + i))),
      pos + cfg.frameSamples * cfg.channels)

/-- Run doCapture over a list of per-tick reported availabilities,
collecting for each tick whether a frame was emitted. -/
noncomputable def runCapture (cfg : CapCfg) (factor : ℝ) (alIn : Bool)
    (subs : ℕ) (sample : ℕ → ℤ) : List ℕ → ℕ → List Bool × ℕ
  | [], pos => ([], pos)
  | a :: rest, pos =>
    let r := doCapture cfg factor alIn subs a sample pos
    let t := runCapture cfg factor alIn subs sample rest r.2
    (r.1.isSome :: t.1, t.2)

/-! ### Per-voice playback queue: Audio::playAudioBuffer -/

/-- Per-voice native buffer bookkeeping: the in-flight buffer ids, oldest
first (AL_BUFFERS_QUEUED counts this list), a fresh-id generator standing
for alGenBuffers, and counters of allocated and deleted buffers. -/
structure Voice where
  queue : List ℕ
  nextBuf : ℕ
  allocated : ℕ
  freed : ℕ

/-- Audio::playAudioBuffer for one voice.  ready models the guard
alOutDev and outputInitialized; processed is what the native layer
reports through AL_BUFFERS_PROCESSED.  With processed buffers present:
unqueue them all, delete all but the first and reuse the first for the
new frame.  With none processed and fewer than 16 queued: allocate one
fresh buffer.  Otherwise: plain return, dropping the frame.  The chosen
buffer is then filled and queued at the back. -/
def playAudioBuffer (ready : Bool) (processed : ℕ) (v : Voice) : Voice :=
  if ready = false then v
  else if 0 < processed then
    { v with
      queue := v.queue.drop processed ++ [(v.queue.take processed).headD 0],
      freed := v.freed + (processed - 1) }
  else if v.queue.length < 16 then
    { v with
      queue := v.queue ++ [v.nextBuf],
      nextBuf := v.nextBuf + 1,
      allocated := v.allocated + 1 }
  else v

/-- Fold playAudioBuffer over a sequence of per-call processed reports. -/
def runVoice (v : Voice) (ps : List ℕ) : Voice :=
  ps.foldl (fun w p => playAudioBuffer true p w) v

/-! ### Output side: alOutDev, alOutContext, outputInitialized, outSources,
alMainSource, alMainBuffer, the one-shot player and its single-shot
timer -/

/-- Environment of the output-side native calls. -/
structure OutEnv where
  devIsNone : Bool
  openOk : Bool
  contextOk : Bool
  closeOk : Bool

/-- Output-side members of class Audio, plus a discrete clock for the
QTimer playMono16Timer: alOutDev and alOutContext handles, the
outputInitialized flag, the outSources list, a fresh source id generator
for alGenSources, alMainBuffer (0 meaning none) with a fresh buffer id
generator, the buffer currently attached to alMainSource, whether
alMainSource is in the AL_PLAYING state, the current time in
milliseconds, the pending single-shot deadline of playMono16Timer, a
counter of its firings and a counter of deleted one-shot buffers. -/
structure OutState where
  alOutDev : Bool
  alOutContext : Bool
  outputInitialized : Bool
  outSources : List ℕ
  nextSid : ℕ
  alMainBuffer : Option ℕ
  nextBufId : ℕ
  attachedBuf : Option ℕ
  mainPlaying : Bool
  now : ℕ
  deadline : Option ℕ
  fires : ℕ
  freedBufs : ℕ

/-- Output-side fields as set by the Audio constructor. -/
def OutState.init : OutState :=
  ⟨false, false, false, [], 1, none, 1, none, false, 0, none, 0, 0⟩

/-- Audio::initOutput: clears outSources and outputInitialized first;
descriptor none returns false with nothing opened; otherwise attempts
alcOpenDevice, creates and activates a context, creates alMainSource,
applies the master volume and marks the session initialized only when
every step succeeded. -/
def initOutput (env : OutEnv) (s : OutState) : Bool × OutState :=
  let s0 := { s with outSources := [], outputInitialized := false }
  if env.devIsNone then (false, s0)
  else if env.openOk = false then (false, s0)
  else
    let s1 := { s0 with alOutDev := true, alOutContext := true }
    if env.contextOk = false then (false, s1)
    else (true, { s1 with outputInitialized := true })

/-- Audio::autoInitOutput: an already-open device short-circuits to
true. -/
def autoInitOutput (env : OutEnv) (s : OutState) : Bool × OutState :=
  if s.alOutDev then (true, s) else initOutput env s

/-- Audio::cleanupOutput: clear outputInitialized; when a device is open,
stop and delete alMainSource, delete alMainBuffer when present, destroy
the context, and clear alOutDev only when alcCloseDevice succeeds. -/
def cleanupOutput (env : OutEnv) (s : OutState) : OutState :=
  let s1 := { s with outputInitialized := false }
  if s1.alOutDev = false then s1
  else
    let s2 := { s1 with
      mainPlaying := false
      attachedBuf := none
      alMainBuffer := none
      freedBufs := s1.freedBufs + (if s1.alMainBuffer.isSome then 1 else 0)
      alOutContext := false }
    if env.closeOk then { s2 with alOutDev := false } else s2

/-- Audio::subscribeOutput: ensure the device is open, re-activate the
context, then alGenSources a new id and append it to outSources.  Returns
the produced source id, when any. -/
def subscribeOutput (env : OutEnv) (s : OutState) : OutState × Option ℕ :=
  let r := autoInitOutput env s
  if r.1 = false then (r.2, none)
  else if env.contextOk = false then (r.2, none)
  else
    ({ r.2 with
        outSources := r.2.outSources ++ [r.2.nextSid]
        nextSid := r.2.nextSid + 1 }, some r.2.nextSid)

/-- QList::removeAll on the outSources list. -/
def removeAll (sid : ℕ) (l : List ℕ) : List ℕ := l.filter fun x => x != sid

/-- Audio::unsubscribeOutput: remove every occurrence of sid from
outSources, delete the native source (logging only), and run
cleanupOutput exactly when the remaining set is empty. -/
def unsubscribeOutput (env : OutEnv) (s : OutState) (sid : ℕ) : OutState :=
  let s1 := { s with outSources := removeAll sid s.outSources }
  if s1.outSources.isEmpty then cleanupOutput env s1 else s1

/-- Estimated clip duration in milliseconds: data.size() * 1000 / 2 /
44100 for 44100 Hz mono 16-bit PCM. -/
def durMs (size : ℕ) : ℕ := size * 1000 / 2 / 44100

/-- Audio::playMono16Sound(QByteArray): ensure output is open, lazily
create alMainBuffer, stop the voice and detach its buffer when it is
playing, upload the clip into the shared buffer, attach it, start
playback and restart the single-shot playMono16Timer with the estimated
duration plus 50 ms of slack. -/
def playMono16Sound (env : OutEnv) (s : OutState) (size : ℕ) : OutState :=
  let r := autoInitOutput env s
  if r.1 = false then r.2
  else
    let s1 := r.2
    let s2 := if s1.alMainBuffer.isNone then
        { s1 with alMainBuffer := some s1.nextBufId, nextBufId := s1.nextBufId + 1 }
      else s1
    let s3 := if s2.mainPlaying then
        { s2 with mainPlaying := false, attachedBuf := none }
      else s2
    { s3 with
      attachedBuf := s3.alMainBuffer
      mainPlaying := true
      deadline := some (s3.now + durMs size + 50) }

/-- Audio::playMono16SoundCleanup (the timer slot): when alMainSource is
in the stopped state, detach the buffer, delete alMainBuffer and zero
it; otherwise leave everything alone. -/
def playMono16SoundCleanup (s : OutState) : OutState :=
  if s.mainPlaying = false then
    { s with
      attachedBuf := none
      alMainBuffer := none
      freedBufs := s.freedBufs + (if s.alMainBuffer.isSome then 1 else 0) }
  else s

/-- One millisecond of time: advance the clock, and when the single-shot
timer deadline is reached, fire playMono16SoundCleanup once and disarm
the timer. -/
def outTick (s : OutState) : OutState :=
  let s1 := { s with now := s.now + 1 }
  match s1.deadline with
  | none => s1
  | some d =>
    if d ≤ s1.now then
      { (playMono16SoundCleanup s1) with deadline := none, fires := s1.fires + 1 }
    else s1

/-- The native voice finishing the clip on its own: alMainSource leaves
the AL_PLAYING state. -/
def voiceStops (s : OutState) : OutState := { s with mainPlaying := false }

/-- Caller-visible and environment output events. -/
inductive OutOp where
  | subOut : OutOp
  | unsubOut : ℕ → OutOp
  | clip : ℕ → OutOp
  | stopV : OutOp
  | tick : OutOp
deriving DecidableEq

/-- Dispatch one output event. -/
def outStep (env : OutEnv) (s : OutState) : OutOp → OutState
  | OutOp.subOut => (subscribeOutput env s).1
  | OutOp.unsubOut sid => unsubscribeOutput env s sid
  | OutOp.clip size => playMono16Sound env s size
  | OutOp.stopV => voiceStops s
  | OutOp.tick => outTick s

/-- Run a list of output events from a given state. -/
def runOutFrom (env : OutEnv) (s : OutState) (ops : List OutOp) : OutState :=
  ops.foldl (outStep env) s

/-- Run a list of output events from the constructed state. -/
def runOut (env : OutEnv) (ops : List OutOp) : OutState :=
  runOutFrom env OutState.init ops

/-- Well-behaved native environment for the output side. -/
def goodOutEnv : OutEnv := ⟨false, true, true, true⟩

/-- Modelled from the spec: a one-shot clip is pending exactly when the
shared one-shot buffer alMainBuffer is allocated (the code has no other
trace of a pending clip once the timer has fired). -/
def clipPending (s : OutState) : Prop := s.alMainBuffer.isSome

instance (s : OutState) : Decidable (clipPending s) :=
  inferInstanceAs (Decidable (s.alMainBuffer.isSome = true))

/-- Events that are not playClip calls: time passing and the voice
stopping on its own. -/
def passiveOp : OutOp → Bool
  | OutOp.stopV => true
  | OutOp.tick => true
  | _ => false

/-- Reachable-state facts of the output side under a well-behaved
environment: the device handle, context handle and initialized flag
agree, and a non-empty source set or an allocated one-shot buffer implies
an initialized session. -/
def outInv (s : OutState) : Prop :=
  s.alOutDev = s.outputInitialized ∧ s.alOutContext = s.outputInitialized ∧
    ((s.outSources ≠ [] ∨ clipPending s) → s.outputInitialized = true)

/-! ## Theorems -/

/-- C5: setInputGain always succeeds, stores qBound(minDb, dB, maxDb) as
the current gain and recomputes the linear factor as 10 raised to the
stored gain over 20; on in-range input the factor afterwards is 10
raised to dB over 20, and out-of-range input is stored as the nearer
bound. -/
theorem c5_set_input_gain_clamp_and_factor (s : GainState) (dB : ℝ) :
    (setInputGain s dB).gain = qBoundR s.minInputGain dB s.maxInputGain ∧
    (setInputGain s dB).gainFactor = tenPow ((setInputGain s dB).gain) ∧
    (s.minInputGain ≤ dB → dB ≤ s.maxInputGain →
      (setInputGain s dB).gainFactor = tenPow dB) ∧
    (s.minInputGain ≤ s.maxInputGain → dB < s.minInputGain →
      (setInputGain s dB).gain = s.minInputGain) ∧
    (s.minInputGain ≤ s.maxInputGain → s.maxInputGain < dB →
      (setInputGain s dB).gain = s.maxInputGain) := by
  refine ⟨rfl, rfl, ?_, ?_, ?_⟩
  · intro h1 h2
    simp only [setInputGain, qBoundR]
    rw [min_eq_left h2, max_eq_right h1]
  · intro hb h
    simp only [setInputGain, qBoundR]
    rw [min_eq_left (le_of_lt (lt_of_lt_of_le h hb)),
      max_eq_left (le_of_lt h)]
  · intro hb h
    simp only [setInputGain, qBoundR]
    rw [min_eq_right (le_of_lt h), max_eq_right hb]

/-- Witness for c5_set_input_gain_clamp_and_factor at the constructed
state and dB = 10. -/
theorem c5_witness :
    GainState.init.minInputGain ≤ 10 ∧ (10 : ℝ) ≤ GainState.init.maxInputGain ∧
      (setInputGain GainState.init 10).gainFactor = tenPow 10 :=
  ⟨by norm_num [GainState.init], by norm_num [GainState.init],
    (c5_set_input_gain_clamp_and_factor GainState.init 10).2.2.1
      (by norm_num [GainState.init]) (by norm_num [GainState.init])⟩

/-- C6 counterexample: in the freshly constructed controller the stored
linear factor is 0, not 10 raised to the stored gain over 20 (which is
1), so the claimed every-reachable-state invariant fails already at the
constructor. -/
theorem c6_counterexample :
    GainState.init.gainFactor ≠ tenPow GainState.init.gain := by
  simp only [GainState.init, tenPow, zero_div, Real.rpow_zero]
  norm_num

/-- C6 amended: after any setInputGain call made while minDb is at most
maxDb, the invariant holds: the stored gain lies in the bounds and the
linear factor is 10 raised to the stored gain over 20.  The invariant is
not established by the constructor (the factor starts at 0) and is not
re-established by setMinInputGain or setMaxInputGain, which change a
bound without touching the stored gain or factor. -/
theorem c6_gain_invariant_amended (s : GainState) (dB : ℝ)
    (h : s.minInputGain ≤ s.maxInputGain) :
    s.minInputGain ≤ (setInputGain s dB).gain ∧
    (setInputGain s dB).gain ≤ s.maxInputGain ∧
    (setInputGain s dB).gainFactor = tenPow ((setInputGain s dB).gain) ∧
    (∀ dB2, (setMinInputGain s dB2).gain = s.gain ∧
      (setMinInputGain s dB2).gainFactor = s.gainFactor) ∧
    (∀ dB2, (setMaxInputGain s dB2).gain = s.gain ∧
      (setMaxInputGain s dB2).gainFactor = s.gainFactor) := by
  refine ⟨le_max_left _ _, ?_, rfl, fun dB2 => ⟨rfl, rfl⟩, fun dB2 => ⟨rfl, rfl⟩⟩
  exact max_le h (min_le_right _ _)

/-- Witness for c6_gain_invariant_amended at the constructed state and
dB = 5. -/
theorem c6_witness :
    GainState.init.minInputGain ≤ GainState.init.maxInputGain ∧
      (setInputGain GainState.init 5).gainFactor =
        tenPow ((setInputGain GainState.init 5).gain) :=
  ⟨by norm_num [GainState.init],
    (c6_gain_invariant_amended GainState.init 5 (by norm_num [GainState.init])).2.2.1⟩

/-- C7: the capture gain loop maps each sample to the nearest integer of
sample times factor (qRound is within one half of its argument),
saturate-clamps into the signed 16-bit range, and a sample at int16 max
amplified by any factor greater than 1 comes out as exactly int16 max. -/
theorem c7_gain_saturation :
    (∀ x : ℝ, |(qRound x : ℝ) - x| ≤ 1 / 2) ∧
    (∀ (factor : ℝ) (s : ℤ),
      int16Min ≤ ampPCM factor s ∧ ampPCM factor s ≤ int16Max) ∧
    (∀ factor : ℝ, 1 < factor → ampPCM factor int16Max = int16Max) := by
  refine ⟨?_, ?_, ?_⟩
  · intro x
    unfold qRound
    split_ifs with h
    · rw [abs_le]
      constructor
      · have := Int.sub_one_lt_floor (x + 1 / 2)
        linarith
      · have := Int.floor_le (x + 1 / 2)
        linarith
    · rw [abs_le]
      constructor
      · have := Int.le_ceil (x - 1 / 2)
        linarith
      · have := Int.ceil_lt_add_one (x - 1 / 2)
        linarith
  · intro factor s
    unfold ampPCM qBoundZ
    refine ⟨le_max_left _ _, max_le ?_ (min_le_right _ _)⟩
    norm_num [int16Min, int16Max]
  · intro factor hf
    have hy : (32767 : ℝ) ≤ (32767 : ℝ) * factor := by nlinarith
    have h0 : (0 : ℝ) ≤ (32767 : ℝ) * factor := by nlinarith
    have hq : (32767 : ℤ) ≤ qRound ((32767 : ℝ) * factor) := by
      unfold qRound
      rw [if_pos h0]
      apply Int.le_floor.mpr
      push_cast
      linarith
    unfold ampPCM qBoundZ
    have hcast : ((int16Max : ℤ) : ℝ) = (32767 : ℝ) := by norm_num [int16Max]
    rw [show ((int16Max : ℤ) : ℝ) * factor = (32767 : ℝ) * factor by rw [hcast]]
    rw [min_eq_right (by norm_num [int16Max] at hq ⊢; omega)]
    exact max_eq_right (by norm_num [int16Min, int16Max])

/-- Witness for c7_gain_saturation at factor 2. -/
theorem c7_witness : (1 : ℝ) < 2 ∧ ampPCM 2 int16Max = int16Max :=
  ⟨by norm_num, c7_gain_saturation.2.2 2 (by norm_num)⟩

/-- C8 counterexample: with a device open and the native close reporting
failure, cleanupInput stops streaming but leaves the capture handle set,
contradicting the claim that the handle becomes empty in every case. -/
theorem c8_counterexample :
    (cleanupInput ⟨false, true, false⟩ ⟨true, true, 1⟩).capturing = false ∧
      ¬(cleanupInput ⟨false, true, false⟩ ⟨true, true, 1⟩).alInDev = false := by
  decide

/-- C8 amended: cleanupInput is a no-op when no capture device is open;
otherwise it stops streaming and attempts the close, never failing
upward, and it clears the capture handle exactly when the native close
succeeds — on a failed close it only warns and leaves the handle set. -/
theorem c8_cleanup_input_amended (env : InEnv) (s : InState) :
    (s.alInDev = false → cleanupInput env s = s) ∧
    (s.alInDev = true →
      (cleanupInput env s).capturing = false ∧
      (cleanupInput env s).inSubscriptions = s.inSubscriptions ∧
      (env.closeOk = true → (cleanupInput env s).alInDev = false) ∧
      (env.closeOk = false → (cleanupInput env s).alInDev = true)) := by
  constructor
  · intro h
    simp [cleanupInput, h]
  · intro h
    simp only [cleanupInput, h]
    cases hc : env.closeOk <;> simp [hc]

/-- Witness for c8_cleanup_input_amended at an open device and a
successful close. -/
theorem c8_witness :
    (⟨true, true, 1⟩ : InState).alInDev = true ∧
      (cleanupInput goodInEnv ⟨true, true, 1⟩).capturing = false :=
  ⟨by decide, ((c8_cleanup_input_amended goodInEnv ⟨true, true, 1⟩).2 (by decide)).1⟩

/-- Helper: the head of a non-trivial take agrees with the head of the
list. -/
theorem headD_take_eq (l : List ℕ) (p : ℕ) (hp : 0 < p) :
    (l.take p).headD 0 = l.headD 0 := by
  cases l with
  | nil => simp
  | cons a t =>
    cases p with
    | zero => omega
    | succ n => simp [List.take]

/-- Helper: one playAudioBuffer call keeps the queue length at most 16. -/
theorem playAudioBuffer_len_le (ready : Bool) (p : ℕ) (v : Voice)
    (h : v.queue.length ≤ 16) : (playAudioBuffer ready p v).queue.length ≤ 16 := by
  unfold playAudioBuffer
  split_ifs with h1 h2 h3 <;> simp_all <;> omega

/-- C4: playAudioBuffer keeps the per-voice in-flight buffer count at most
16 over every submission sequence; with processed buffers reported it
unqueues them all, deletes all but one and reuses the retained oldest one
for the new frame with no fresh allocation; with none processed and fewer
than 16 queued it allocates exactly one buffer; at 16 queued with none
processed it returns with the state unchanged; and it is a no-op when the
playback session is not ready. -/
theorem c4_playback_queue_cap (v : Voice) (processed : ℕ) (ps : List ℕ) :
    (v.queue.length ≤ 16 → (runVoice v ps).queue.length ≤ 16) ∧
    (0 < processed → processed ≤ v.queue.length →
      (playAudioBuffer true processed v).queue =
        v.queue.drop processed ++ [v.queue.headD 0] ∧
      (playAudioBuffer true processed v).queue.length =
        v.queue.length - processed + 1 ∧
      (playAudioBuffer true processed v).freed = v.freed + (processed - 1) ∧
      (playAudioBuffer true processed v).allocated = v.allocated) ∧
    (processed = 0 → v.queue.length < 16 →
      (playAudioBuffer true processed v).queue = v.queue ++ [v.nextBuf] ∧
      (playAudioBuffer true processed v).allocated = v.allocated + 1 ∧
      (playAudioBuffer true processed v).freed = v.freed) ∧
    (processed = 0 → v.queue.length = 16 →
      playAudioBuffer true processed v = v) ∧
    playAudioBuffer false processed v = v := by
  refine ⟨?_, ?_, ?_, ?_, ?_⟩
  · intro h
    unfold runVoice
    induction ps generalizing v with
    | nil => simpa using h
    | cons p rest ih =>
      simpa using ih (playAudioBuffer true p v) (playAudioBuffer_len_le true p v h)
  · intro hp hle
    unfold playAudioBuffer
    rw [if_neg (by simp), if_pos hp]
    refine ⟨by rw [headD_take_eq v.queue processed hp], ?_, rfl, rfl⟩
    simp only [List.length_append, List.length_drop, List.length_singleton]
  · intro hp hlt
    unfold playAudioBuffer
    rw [if_neg (by simp), if_neg (by omega), if_pos hlt]
    exact ⟨rfl, rfl, rfl⟩
  · intro hp hq
    unfold playAudioBuffer
    rw [if_neg (by simp), if_neg (by omega), if_neg (by omega)]
  · unfold playAudioBuffer
    rw [if_pos rfl]

/-- Witness for c4_playback_queue_cap with one queued buffer and one
processed report. -/
theorem c4_witness :
    0 < 1 ∧ 1 ≤ (Voice.mk [5] 7 1 0).queue.length ∧
      (playAudioBuffer true 1 (Voice.mk [5] 7 1 0)).queue =
        (Voice.mk [5] 7 1 0).queue.drop 1 ++ [(Voice.mk [5] 7 1 0).queue.headD 0] :=
  ⟨by decide, by decide,
    ((c4_playback_queue_cap (Voice.mk [5] 7 1 0) 1 []).2.1 (by decide) (by decide)).1⟩

/-- Helper: under the well-behaved environment subscribeInput always
increments the count by one. -/
theorem subscribeInput_good_count (s : InState) :
    (subscribeInput goodInEnv s).inSubscriptions = s.inSubscriptions + 1 := by
  unfold subscribeInput autoInitInput initInput goodInEnv
  cases h : s.alInDev <;> simp [h]

/-- Helper: under the well-behaved environment subscribeInput preserves
the input invariant. -/
theorem subscribeInput_good_inv (s : InState) (h : inInv s) :
    inInv (subscribeInput goodInEnv s) := by
  obtain ⟨h1, h2⟩ := h
  unfold subscribeInput autoInitInput initInput goodInEnv
  cases hd : s.alInDev
  · simp [hd, inInv]
  · simp [hd] at h2
    simp [hd, inInv, h2]

/-- Helper: unsubscribeInput at a positive count decrements it by one. -/
theorem unsubscribeInput_count (env : InEnv) (s : InState)
    (h : 0 < s.inSubscriptions) :
    (unsubscribeInput env s).inSubscriptions = s.inSubscriptions - 1 := by
  unfold unsubscribeInput cleanupInput
  rw [if_neg (by omega)]
  dsimp only
  split_ifs <;> rfl

/-- Helper: under the well-behaved environment unsubscribeInput preserves
the input invariant. -/
theorem unsubscribeInput_good_inv (s : InState) (h : inInv s) :
    inInv (unsubscribeInput goodInEnv s) := by
  obtain ⟨h1, h2⟩ := h
  unfold unsubscribeInput cleanupInput goodInEnv
  by_cases h0 : s.inSubscriptions = 0
  · rw [if_pos h0]
    exact ⟨h1, h2⟩
  · rw [if_neg h0]
    by_cases hz : s.inSubscriptions - 1 = 0
    · have hdev : s.alInDev = true := h1.mpr (by omega)
      simp [hz, hdev, inInv]
    · have hdev : s.alInDev = true := h1.mpr (by omega)
      simp [hz, hdev, inInv, h2, hdev ▸ h2]
      omega

/-- Helper: the constructed input state satisfies the input invariant. -/
theorem inInv_init : inInv InState.init := by
  constructor <;> simp [InState.init]

/-- Helper: one step preserves the input invariant under the well-behaved
environment. -/
theorem inStep_good_inv (s : InState) (op : InOp) (h : inInv s) :
    inInv (inStep goodInEnv s op) := by
  cases op with
  | sub => exact subscribeInput_good_inv s h
  | unsub => exact unsubscribeInput_good_inv s h

/-- Helper: the input invariant holds along any run from an invariant
state under the well-behaved environment. -/
theorem runInFrom_good_inv (ops : List InOp) :
    ∀ s : InState, inInv s → inInv (runInFrom goodInEnv s ops) := by
  induction ops with
  | nil => intro s h; exact h
  | cons op rest ih =>
    intro s h
    exact ih (inStep goodInEnv s op) (inStep_good_inv s op h)

/-- Helper: the balance condition on a list starting with a subscribe
transfers to its tail with the count raised by one. -/
theorem prefCond_cons_sub (a : ℕ) (rest : List InOp)
    (h : prefCond a (InOp.sub :: rest)) : prefCond (a + 1) rest := by
  intro n hn
  have := h (n + 1) (by simp only [List.length_cons]; omega)
  simp only [List.take_succ_cons, subsIn, unsubsIn] at this
  omega

/-- Helper: the balance condition on a list starting with an unsubscribe
forces a positive count, and transfers to its tail with the count
lowered by one. -/
theorem prefCond_cons_unsub (a : ℕ) (rest : List InOp)
    (h : prefCond a (InOp.unsub :: rest)) :
    1 ≤ a ∧ prefCond (a - 1) rest := by
  have ha := h 1 (by simp only [List.length_cons]; omega)
  simp only [List.take_succ_cons, List.take_zero, subsIn, unsubsIn] at ha
  refine ⟨by omega, ?_⟩
  intro n hn
  have := h (n + 1) (by simp only [List.length_cons]; omega)
  simp only [List.take_succ_cons, subsIn, unsubsIn] at this
  omega

/-- Helper: along a balanced run under the well-behaved environment the
final count is the initial count plus subscribes minus unsubscribes. -/
theorem runInFrom_good_count (ops : List InOp) :
    ∀ s : InState, prefCond s.inSubscriptions ops →
      (runInFrom goodInEnv s ops).inSubscriptions + unsubsIn ops =
        s.inSubscriptions + subsIn ops := by
  induction ops with
  | nil => intro s _; simp [runInFrom, subsIn, unsubsIn]
  | cons op rest ih =>
    intro s h
    cases op with
    | sub =>
      have h1 := prefCond_cons_sub _ _ h
      have hc := subscribeInput_good_count s
      have h2 := ih (subscribeInput goodInEnv s) (by rw [hc]; exact h1)
      have e1 : runInFrom goodInEnv s (InOp.sub :: rest) =
          runInFrom goodInEnv (subscribeInput goodInEnv s) rest := rfl
      rw [e1]
      simp only [subsIn, unsubsIn]
      omega
    | unsub =>
      obtain ⟨ha, h1⟩ := prefCond_cons_unsub _ _ h
      have hc := unsubscribeInput_count goodInEnv s (by omega)
      have h2 := ih (unsubscribeInput goodInEnv s) (by rw [hc]; exact h1)
      have e1 : runInFrom goodInEnv s (InOp.unsub :: rest) =
          runInFrom goodInEnv (unsubscribeInput goodInEnv s) rest := rfl
      rw [e1]
      simp only [subsIn, unsubsIn]
      omega

/-- C1: under a well-behaved native environment, any balanced run with as
many unsubscribes as subscribes ends with the capture session closed and
the count at zero; a balanced run with fewer unsubscribes than
subscribes (in particular N subscribes and N-1 unsubscribes) leaves the
session open; in every reachable state the session is open exactly when
the count is positive; and unsubscribeInput at count zero is a no-op in
every environment. -/
theorem c1_input_subscription_symmetry :
    (∀ ops : List InOp, prefCond 0 ops → subsIn ops = unsubsIn ops →
      (runIn goodInEnv ops).alInDev = false ∧
        (runIn goodInEnv ops).inSubscriptions = 0) ∧
    (∀ ops : List InOp, prefCond 0 ops → unsubsIn ops < subsIn ops →
      (runIn goodInEnv ops).alInDev = true) ∧
    (∀ ops : List InOp,
      (runIn goodInEnv ops).alInDev = true ↔
        0 < (runIn goodInEnv ops).inSubscriptions) ∧
    (∀ (env : InEnv) (s : InState), s.inSubscriptions = 0 →
      unsubscribeInput env s = s) := by
  have hinv : ∀ ops : List InOp, inInv (runIn goodInEnv ops) := fun ops =>
    runInFrom_good_inv ops InState.init inInv_init
  have hcount : ∀ ops : List InOp, prefCond 0 ops →
      (runIn goodInEnv ops).inSubscriptions + unsubsIn ops = subsIn ops := by
    intro ops h
    have := runInFrom_good_count ops InState.init (by simpa [InState.init] using h)
    simpa [InState.init, runIn] using this
  refine ⟨?_, ?_, ?_, ?_⟩
  · intro ops hb he
    have h0 : (runIn goodInEnv ops).inSubscriptions = 0 := by
      have := hcount ops hb
      omega
    refine ⟨?_, h0⟩
    have := (hinv ops).1
    cases hd : (runIn goodInEnv ops).alInDev
    · rfl
    · exact absurd (this.mp hd) (by omega)
  · intro ops hb hlt
    have := hcount ops hb
    exact (hinv ops).1.mpr (by omega)
  · intro ops
    exact (hinv ops).1
  · intro env s h
    unfold unsubscribeInput
    rw [if_pos h]

/-- Witness for c1_input_subscription_symmetry on the run subscribe then
unsubscribe. -/
theorem c1_witness :
    prefCond 0 [InOp.sub, InOp.unsub] ∧
      subsIn [InOp.sub, InOp.unsub] = unsubsIn [InOp.sub, InOp.unsub] ∧
      (runIn goodInEnv [InOp.sub, InOp.unsub]).alInDev = false :=
  ⟨by decide, by decide,
    (c1_input_subscription_symmetry.1 [InOp.sub, InOp.unsub]
      (by decide) (by decide)).1⟩

/-- Helper: a capture tick with fewer available samples than one frame
reads nothing and leaves the position unchanged. -/
theorem doCapture_below (cfg : CapCfg) (factor : ℝ) (subs avail : ℕ)
    (sample : ℕ → ℤ) (pos : ℕ) (hs : 0 < subs) (h : avail < cfg.frameSamples) :
    doCapture cfg factor true subs avail sample pos = (none, pos) := by
  unfold doCapture
  rw [if_neg (by simp; omega), if_pos h]

/-- Helper: a capture tick with at least one frame available reads and
emits exactly one frame. -/
theorem doCapture_ready (cfg : CapCfg) (factor : ℝ) (subs avail : ℕ)
    (sample : ℕ → ℤ) (pos : ℕ) (hs : 0 < subs) (h : cfg.frameSamples ≤ avail) :
    doCapture cfg factor true subs avail sample pos =
      (some ((List.range (cfg.frameSamples * cfg.channels)).map fun i =>
          ampPCM factor (sample (pos + i))),
        pos + cfg.frameSamples * cfg.channels) := by
  unfold doCapture
  rw [if_neg (by simp; omega), if_neg (by omega)]

/-- C3: with the device open and a subscriber present, a capture tick
whose reported availability is below one frame is a no-op (nothing read,
nothing emitted, position unchanged); once availability reaches the
frame threshold exactly one frame of exactly frameSamples times channels
samples is read and emitted; and the mock availability sequence 0,
frame-1, frame, frame+k produces emissions 0, 0, 1, 1. -/
theorem c3_capture_tick_threshold (cfg : CapCfg) (factor : ℝ)
    (sample : ℕ → ℤ) (subs pos k : ℕ) (hF : 0 < cfg.frameSamples)
    (hs : 0 < subs) :
    (∀ avail, avail < cfg.frameSamples →
      doCapture cfg factor true subs avail sample pos = (none, pos)) ∧
    (∀ avail, cfg.frameSamples ≤ avail →
      ∃ frame, doCapture cfg factor true subs avail sample pos =
          (some frame, pos + cfg.frameSamples * cfg.channels) ∧
        frame.length = cfg.frameSamples * cfg.channels) ∧
    (runCapture cfg factor true subs sample
        [0, cfg.frameSamples - 1, cfg.frameSamples, cfg.frameSamples + k]
        pos).1 = [false, false, true, true] := by
  refine ⟨?_, ?_, ?_⟩
  · intro avail h
    exact doCapture_below cfg factor subs avail sample pos hs h
  · intro avail h
    refine ⟨_, doCapture_ready cfg factor subs avail sample pos hs h, ?_⟩
    rw [List.length_map, List.length_range]
  · have e0 := doCapture_below cfg factor subs 0 sample pos hs hF
    have e1 := doCapture_below cfg factor subs (cfg.frameSamples - 1) sample pos
      hs (by omega)
    have e2 := doCapture_ready cfg factor subs cfg.frameSamples sample pos hs
      (le_refl _)
    have e3 := doCapture_ready cfg factor subs (cfg.frameSamples + k) sample
      (pos + cfg.frameSamples * cfg.channels) hs (by omega)
    simp only [runCapture, e0, e1, e2, e3, Option.isSome_none, Option.isSome_some]

/-- Witness for c3_capture_tick_threshold at frame size 4, one channel,
unit gain, a zero stream and k = 2. -/
theorem c3_witness :
    0 < (CapCfg.mk 4 1).frameSamples ∧ 0 < 1 ∧
      (runCapture (CapCfg.mk 4 1) 1 true 1 (fun _ => (0 : ℤ))
        [0, (CapCfg.mk 4 1).frameSamples - 1, (CapCfg.mk 4 1).frameSamples,
          (CapCfg.mk 4 1).frameSamples + 2] 0).1 = [false, false, true, true] :=
  ⟨by decide, by decide,
    (c3_capture_tick_threshold (CapCfg.mk 4 1) 1 (fun _ => (0 : ℤ)) 1 0 2
      (by decide) (by decide)).2.2⟩

/-- Helper: subscribeOutput on a closed device under the well-behaved
environment fully opens the session and produces the next source id. -/
theorem subscribeOutput_good_closed (s : OutState) (hd : s.alOutDev = false) :
    subscribeOutput goodOutEnv s =
      ({ s with
          alOutDev := true
          alOutContext := true
          outputInitialized := true
          outSources := [s.nextSid]
          nextSid := s.nextSid + 1 }, some s.nextSid) := by
  unfold subscribeOutput autoInitOutput initOutput goodOutEnv
  rw [hd]
  rfl

/-- Helper: subscribeOutput on an open device only appends a fresh source
id. -/
theorem subscribeOutput_good_open (s : OutState) (hd : s.alOutDev = true) :
    subscribeOutput goodOutEnv s =
      ({ s with
          outSources := s.outSources ++ [s.nextSid]
          nextSid := s.nextSid + 1 }, some s.nextSid) := by
  unfold subscribeOutput autoInitOutput initOutput goodOutEnv
  simp [hd]

/-- Helper: cleanupOutput with no device open only clears the initialized
flag. -/
theorem cleanupOutput_closed (env : OutEnv) (s : OutState) (hd : s.alOutDev = false) :
    cleanupOutput env s = { s with outputInitialized := false } := by
  unfold cleanupOutput
  simp [hd]

/-- Helper: cleanupOutput with a device open under the well-behaved
environment tears everything down. -/
theorem cleanupOutput_good_open (s : OutState) (hd : s.alOutDev = true) :
    cleanupOutput goodOutEnv s =
      { s with
          alOutDev := false
          alOutContext := false
          outputInitialized := false
          alMainBuffer := none
          attachedBuf := none
          mainPlaying := false
          freedBufs := s.freedBufs + (if s.alMainBuffer.isSome then 1 else 0) } := by
  unfold cleanupOutput goodOutEnv
  simp [hd]

/-- Helper: cleanupOutput always clears the initialized flag. -/
theorem cleanupOutput_not_initialized (env : OutEnv) (s : OutState) :
    (cleanupOutput env s).outputInitialized = false := by
  unfold cleanupOutput
  dsimp only
  split_ifs <;> rfl

/-- Helper: unsubscribeOutput runs cleanupOutput when the set becomes
empty. -/
theorem unsubscribeOutput_empty (env : OutEnv) (s : OutState) (sid : ℕ)
    (he : removeAll sid s.outSources = []) :
    unsubscribeOutput env s sid =
      cleanupOutput env { s with outSources := removeAll sid s.outSources } := by
  unfold unsubscribeOutput
  rw [if_pos (by simp [he])]

/-- Helper: unsubscribeOutput only shrinks the set when it stays
non-empty. -/
theorem unsubscribeOutput_nonempty (env : OutEnv) (s : OutState) (sid : ℕ)
    (he : removeAll sid s.outSources ≠ []) :
    unsubscribeOutput env s sid = { s with outSources := removeAll sid s.outSources } := by
  unfold unsubscribeOutput
  rw [if_neg (by simpa [List.isEmpty_iff] using he)]

/-- Helper: the constructed output state satisfies the output facts. -/
theorem outInv_init : outInv OutState.init := by
  refine ⟨rfl, rfl, ?_⟩
  intro h
  simp [OutState.init, clipPending] at h

set_option maxRecDepth 4000 in
/-- Helper: subscribeOutput preserves the output facts under the
well-behaved environment. -/
theorem subscribeOutput_good_inv (s : OutState) (h : outInv s) :
    outInv (subscribeOutput goodOutEnv s).1 := by
  obtain ⟨h1, h2, h3⟩ := h
  cases hd : s.alOutDev with
  | false =>
    rw [subscribeOutput_good_closed s hd]
    exact ⟨rfl, rfl, fun _ => rfl⟩
  | true =>
    have hi : s.outputInitialized = true := by rw [← h1, hd]
    have hc : s.alOutContext = true := by rw [h2, hi]
    rw [subscribeOutput_good_open s hd]
    exact ⟨by rw [hd, hi], by rw [hc, hi], fun _ => hi⟩

set_option maxRecDepth 4000 in
/-- Helper: unsubscribeOutput preserves the output facts under the
well-behaved environment. -/
theorem unsubscribeOutput_good_inv (s : OutState) (sid : ℕ) (h : outInv s) :
    outInv (unsubscribeOutput goodOutEnv s sid) := by
  obtain ⟨h1, h2, h3⟩ := h
  by_cases he : removeAll sid s.outSources = []
  · rw [unsubscribeOutput_empty goodOutEnv s sid he]
    cases hd : s.alOutDev with
    | false =>
      have hi : s.outputInitialized = false := by rw [← h1, hd]
      have hb : s.alMainBuffer = none := by
        cases hbm : s.alMainBuffer with
        | none => rfl
        | some b =>
          have := h3 (Or.inr (by simp [clipPending, hbm]))
          rw [this] at hi
          exact absurd hi (by simp)
      rw [cleanupOutput_closed goodOutEnv _ (by simp [hd])]
      refine ⟨by simp [hd], ?_, ?_⟩
      · simpa [hi] using h2
      · intro hx
        rcases hx with hx | hx
        · exact absurd he hx
        · simp [clipPending, hb] at hx
    | true =>
      rw [cleanupOutput_good_open _ (by simp [hd])]
      exact ⟨rfl, rfl, fun hx => by
        rcases hx with hx | hx
        · exact absurd he hx
        · simp [clipPending] at hx⟩
  · rw [unsubscribeOutput_nonempty goodOutEnv s sid he]
    refine ⟨h1, h2, ?_⟩
    intro hx
    apply h3
    rcases hx with hx | hx
    · left
      intro hc
      simp [removeAll, hc] at hx
    · right
      exact hx

set_option maxRecDepth 8000 in
/-- Helper: playMono16Sound preserves the output facts under the
well-behaved environment. -/
theorem playMono16Sound_good_inv (s : OutState) (size : ℕ) (h : outInv s) :
    outInv (playMono16Sound goodOutEnv s size) := by
  obtain ⟨h1, h2, h3⟩ := h
  unfold playMono16Sound autoInitOutput initOutput goodOutEnv
  cases hd : s.alOutDev with
  | false =>
    cases hb : s.alMainBuffer <;> cases hp : s.mainPlaying <;>
      simp [outInv, clipPending, hb, hp]
  | true =>
    have hi : s.outputInitialized = true := by rw [← h1, hd]
    have hc : s.alOutContext = true := by rw [h2, hi]
    cases hb : s.alMainBuffer <;> cases hp : s.mainPlaying <;>
      simp [outInv, clipPending, hb, hp, hi, hc, hd]

/-- Helper: the one-shot cleanup slot preserves the output facts. -/
theorem playMono16SoundCleanup_inv (s : OutState) (h : outInv s) :
    outInv (playMono16SoundCleanup s) := by
  obtain ⟨h1, h2, h3⟩ := h
  unfold playMono16SoundCleanup
  by_cases hp : s.mainPlaying = false
  · rw [if_pos hp]
    refine ⟨h1, h2, fun hx => h3 ?_⟩
    rcases hx with hx | hx
    · exact Or.inl hx
    · exact absurd hx (by simp [clipPending])
  · rw [if_neg hp]
    exact ⟨h1, h2, h3⟩

/-- Helper: a timer tick preserves the output facts. -/
theorem outTick_inv (s : OutState) (h : outInv s) : outInv (outTick s) := by
  obtain ⟨h1, h2, h3⟩ := h
  unfold outTick
  dsimp only
  cases hdl : s.deadline with
  | none => exact ⟨h1, h2, h3⟩
  | some d =>
    dsimp only
    by_cases hle : d ≤ s.now + 1
    · rw [if_pos hle]
      obtain ⟨g1, g2, g3⟩ :=
        playMono16SoundCleanup_inv
          { s with now := s.now + 1, deadline := some d } ⟨h1, h2, h3⟩
      exact ⟨g1, g2, g3⟩
    · rw [if_neg hle]
      exact ⟨h1, h2, h3⟩

/-- Helper: every output event preserves the output facts under the
well-behaved environment. -/
theorem outStep_good_inv (s : OutState) (op : OutOp) (h : outInv s) :
    outInv (outStep goodOutEnv s op) := by
  cases op with
  | subOut => exact subscribeOutput_good_inv s h
  | unsubOut sid => exact unsubscribeOutput_good_inv s sid h
  | clip size => exact playMono16Sound_good_inv s size h
  | stopV =>
    obtain ⟨h1, h2, h3⟩ := h
    exact ⟨h1, h2, h3⟩
  | tick => exact outTick_inv s h

/-- Helper: the output facts hold in every state reachable from the
constructed one under the well-behaved environment. -/
theorem runOut_good_inv (ops : List OutOp) : outInv (runOut goodOutEnv ops) := by
  suffices hgen : ∀ s : OutState, outInv s → outInv (runOutFrom goodOutEnv s ops) from
    hgen OutState.init outInv_init
  induction ops with
  | nil => intro s h; exact h
  | cons op rest ih =>
    intro s h
    exact ih (outStep goodOutEnv s op) (outStep_good_inv s op h)

/-- C2 counterexample: play a one-shot clip, let the voice stop, and let
the cleanup timer fire.  The reached state has the playback session still
initialized while the voice set is empty and no clip is pending (the
shared one-shot buffer is freed and the timer disarmed), refuting the
claimed iff-invariant. -/
theorem c2_counterexample :
    (runOut goodOutEnv ([OutOp.clip 2, OutOp.stopV] ++
        List.replicate 50 OutOp.tick)).outputInitialized = true ∧
    (runOut goodOutEnv ([OutOp.clip 2, OutOp.stopV] ++
        List.replicate 50 OutOp.tick)).outSources = [] ∧
    (runOut goodOutEnv ([OutOp.clip 2, OutOp.stopV] ++
        List.replicate 50 OutOp.tick)).alMainBuffer = none ∧
    (runOut goodOutEnv ([OutOp.clip 2, OutOp.stopV] ++
        List.replicate 50 OutOp.tick)).deadline = none ∧
    ¬((runOut goodOutEnv ([OutOp.clip 2, OutOp.stopV] ++
          List.replicate 50 OutOp.tick)).outputInitialized = true ↔
        ((runOut goodOutEnv ([OutOp.clip 2, OutOp.stopV] ++
            List.replicate 50 OutOp.tick)).outSources ≠ [] ∨
          clipPending (runOut goodOutEnv ([OutOp.clip 2, OutOp.stopV] ++
            List.replicate 50 OutOp.tick)))) := by
  decide

/-- C2 amended: in every reachable state a non-empty voice set or a
pending one-shot clip implies an initialized playback session (the
converse fails: after a one-shot finishes and its cleanup fires, the
session stays initialized until an unsubscribeOutput empties the set);
subscribeOutput from an empty set immediately followed by
unsubscribeOutput on the returned id leaves no open playback session;
and unsubscribeOutput runs the full teardown exactly when the set
becomes empty, leaving the state otherwise untouched. -/
theorem c2_output_liveness_amended :
    (∀ ops : List OutOp,
      ((runOut goodOutEnv ops).outSources ≠ [] ∨
          clipPending (runOut goodOutEnv ops)) →
        (runOut goodOutEnv ops).outputInitialized = true) ∧
    (∀ s : OutState, s.outSources = [] →
      (subscribeOutput goodOutEnv s).2.isSome = true ∧
      (unsubscribeOutput goodOutEnv (subscribeOutput goodOutEnv s).1
          ((subscribeOutput goodOutEnv s).2.getD 0)).outputInitialized = false ∧
      (unsubscribeOutput goodOutEnv (subscribeOutput goodOutEnv s).1
          ((subscribeOutput goodOutEnv s).2.getD 0)).alOutDev = false) ∧
    (∀ (env : OutEnv) (s : OutState) (sid : ℕ),
      (removeAll sid s.outSources = [] →
        (unsubscribeOutput env s sid).outputInitialized = false) ∧
      (removeAll sid s.outSources ≠ [] →
        unsubscribeOutput env s sid =
          { s with outSources := removeAll sid s.outSources })) := by
  refine ⟨?_, ?_, ?_⟩
  · intro ops
    exact (runOut_good_inv ops).2.2
  · intro s hs
    cases hd : s.alOutDev with
    | false =>
      rw [subscribeOutput_good_closed s hd]
      dsimp only
      have hrm : removeAll s.nextSid [s.nextSid] = [] := by simp [removeAll]
      rw [unsubscribeOutput_empty goodOutEnv _ _ (by simpa using hrm)]
      rw [cleanupOutput_good_open _ rfl]
      exact ⟨rfl, rfl, rfl⟩
    | true =>
      rw [subscribeOutput_good_open s hd]
      dsimp only
      have hrm : removeAll s.nextSid (s.outSources ++ [s.nextSid]) = [] := by
        simp [removeAll, hs]
      rw [unsubscribeOutput_empty goodOutEnv _ _ (by simpa [hs] using hrm)]
      rw [cleanupOutput_good_open _ (by simp [hd])]
      exact ⟨rfl, rfl, rfl⟩
  · intro env s sid
    constructor
    · intro he
      rw [unsubscribeOutput_empty env s sid he]
      exact cleanupOutput_not_initialized env _
    · intro he
      exact unsubscribeOutput_nonempty env s sid he

/-- Witness for c2_output_liveness_amended: subscribe then unsubscribe
from the constructed state closes the session. -/
theorem c2_witness :
    OutState.init.outSources = [] ∧
      (unsubscribeOutput goodOutEnv (subscribeOutput goodOutEnv OutState.init).1
          ((subscribeOutput goodOutEnv OutState.init).2.getD 0)).outputInitialized =
        false :=
  ⟨rfl, (c2_output_liveness_amended.2.1 OutState.init rfl).2.1⟩

/-- Helper: a tick with the timer disarmed only advances the clock. -/
theorem outTick_none (s : OutState) (hdl : s.deadline = none) :
    outTick s = { s with now := s.now + 1 } := by
  unfold outTick
  dsimp only
  rw [hdl]

/-- Helper: a tick strictly before the deadline only advances the
clock. -/
theorem outTick_early (s : OutState) (d : ℕ) (hdl : s.deadline = some d)
    (hlt : s.now + 1 < d) : outTick s = { s with now := s.now + 1 } := by
  unfold outTick
  dsimp only
  rw [hdl]
  dsimp only
  rw [if_neg (by omega)]

/-- Helper: the tick reaching the deadline fires the cleanup once,
disarms the timer, and frees the buffer exactly when the voice has
stopped. -/
theorem outTick_fire (s : OutState) (d : ℕ) (hdl : s.deadline = some d)
    (hle : d ≤ s.now + 1) :
    (outTick s).deadline = none ∧ (outTick s).fires = s.fires + 1 ∧
    (s.mainPlaying = false →
      (outTick s).alMainBuffer = none ∧ (outTick s).attachedBuf = none) ∧
    (s.mainPlaying = true →
      (outTick s).alMainBuffer = s.alMainBuffer ∧
      (outTick s).attachedBuf = s.attachedBuf) := by
  unfold outTick
  dsimp only
  rw [hdl]
  dsimp only
  rw [if_pos hle]
  unfold playMono16SoundCleanup
  cases hp : s.mainPlaying <;> simp [hp]

/-- Helper: with the timer disarmed, time passing and voice stops never
fire the cleanup. -/
theorem runPassive_none_fires (evs : List OutOp) : ∀ s : OutState,
    s.deadline = none → (∀ o ∈ evs, passiveOp o = true) →
    (runOutFrom goodOutEnv s evs).fires = s.fires ∧
      (runOutFrom goodOutEnv s evs).deadline = none := by
  induction evs with
  | nil => intro s hdl _; exact ⟨rfl, hdl⟩
  | cons op rest ih =>
    intro s hdl hp
    have hpo := hp op (List.mem_cons_self _ _)
    have hpr : ∀ o ∈ rest, passiveOp o = true :=
      fun o ho => hp o (List.mem_cons_of_mem _ ho)
    cases op with
    | subOut => exact absurd hpo (by simp [passiveOp])
    | unsubOut sid => exact absurd hpo (by simp [passiveOp])
    | clip size => exact absurd hpo (by simp [passiveOp])
    | stopV =>
      exact ih (voiceStops s) hdl hpr
    | tick =>
      have e := outTick_none s hdl
      have h2 := ih (outTick s) (by rw [e]; exact hdl) hpr
      have e1 : runOutFrom goodOutEnv s (OutOp.tick :: rest) =
          runOutFrom goodOutEnv (outTick s) rest := rfl
      refine ⟨?_, by rw [e1]; exact h2.2⟩
      rw [e1, h2.1, e]

/-- Helper: without further playClip calls the single-shot timer fires at
most once. -/
theorem runPassive_fires_le (evs : List OutOp) : ∀ s : OutState,
    (∀ o ∈ evs, passiveOp o = true) →
    (runOutFrom goodOutEnv s evs).fires ≤ s.fires + 1 := by
  induction evs with
  | nil => intro s _; exact Nat.le_succ _
  | cons op rest ih =>
    intro s hp
    have hpo := hp op (List.mem_cons_self _ _)
    have hpr : ∀ o ∈ rest, passiveOp o = true :=
      fun o ho => hp o (List.mem_cons_of_mem _ ho)
    cases op with
    | subOut => exact absurd hpo (by simp [passiveOp])
    | unsubOut sid => exact absurd hpo (by simp [passiveOp])
    | clip size => exact absurd hpo (by simp [passiveOp])
    | stopV =>
      exact ih (voiceStops s) hpr
    | tick =>
      have e1 : runOutFrom goodOutEnv s (OutOp.tick :: rest) =
          runOutFrom goodOutEnv (outTick s) rest := rfl
      rw [e1]
      cases hdl : s.deadline with
      | none =>
        have e := outTick_none s hdl
        have := ih (outTick s) hpr
        rw [e] at this
        rw [e]
        exact this
      | some d =>
        by_cases hle : d ≤ s.now + 1
        · have hf := outTick_fire s d hdl hle
          have h2 := runPassive_none_fires rest (outTick s) hf.1 hpr
          rw [h2.1, hf.2.1]
        · have e := outTick_early s d hdl (by omega)
          have := ih (outTick s) hpr
          rw [e] at this
          rw [e]
          exact this

/-- C9: a playClip issued while the dedicated voice is still playing stops
the voice, detaches the shared buffer and reuses it at attach time (the
buffer id is retained, nothing is freed and nothing newly allocated),
and restarts the single-shot cleanup timer to the new deadline of the
clip; without further playClip calls at most one cleanup fires; the tick
reaching the deadline fires the cleanup exactly once, freeing the shared
buffer only if the voice has stopped by then; and ticks strictly before
the current deadline do nothing, so the overwritten earlier schedule
never fires. -/
theorem c9_one_shot_interruption :
    (∀ (s : OutState) (b sizeB : ℕ), s.alOutDev = true → s.mainPlaying = true →
      s.alMainBuffer = some b →
      (playMono16Sound goodOutEnv s sizeB).alMainBuffer = some b ∧
      (playMono16Sound goodOutEnv s sizeB).attachedBuf = some b ∧
      (playMono16Sound goodOutEnv s sizeB).mainPlaying = true ∧
      (playMono16Sound goodOutEnv s sizeB).freedBufs = s.freedBufs ∧
      (playMono16Sound goodOutEnv s sizeB).nextBufId = s.nextBufId ∧
      (playMono16Sound goodOutEnv s sizeB).fires = s.fires ∧
      (playMono16Sound goodOutEnv s sizeB).deadline =
        some (s.now + durMs sizeB + 50)) ∧
    (∀ (s : OutState) (evs : List OutOp), (∀ o ∈ evs, passiveOp o = true) →
      (runOutFrom goodOutEnv s evs).fires ≤ s.fires + 1) ∧
    (∀ (s : OutState) (d : ℕ), s.deadline = some d → d ≤ s.now + 1 →
      (outTick s).deadline = none ∧ (outTick s).fires = s.fires + 1 ∧
      (s.mainPlaying = false →
        (outTick s).alMainBuffer = none ∧ (outTick s).attachedBuf = none) ∧
      (s.mainPlaying = true →
        (outTick s).alMainBuffer = s.alMainBuffer ∧
        (outTick s).attachedBuf = s.attachedBuf)) ∧
    (∀ (s : OutState) (d : ℕ), s.deadline = some d → s.now + 1 < d →
      outTick s = { s with now := s.now + 1 }) := by
  refine ⟨?_, ?_, ?_, ?_⟩
  · intro s b sizeB hd hp hb
    unfold playMono16Sound autoInitOutput goodOutEnv
    simp [hd, hp, hb]
  · intro s evs hp
    exact runPassive_fires_le evs s hp
  · intro s d hdl hle
    exact outTick_fire s d hdl hle
  · intro s d hdl hlt
    exact outTick_early s d hdl hlt

/-- Witness for c9_one_shot_interruption: interrupting the clip played
from the constructed state reschedules the cleanup. -/
theorem c9_witness :
    (runOut goodOutEnv [OutOp.clip 2]).alOutDev = true ∧
      (runOut goodOutEnv [OutOp.clip 2]).mainPlaying = true ∧
      (runOut goodOutEnv [OutOp.clip 2]).alMainBuffer = some 1 ∧
      (playMono16Sound goodOutEnv (runOut goodOutEnv [OutOp.clip 2]) 4).deadline =
        some ((runOut goodOutEnv [OutOp.clip 2]).now + durMs 4 + 50) :=
  ⟨by decide, by decide, by decide,
    (c9_one_shot_interruption.1 (runOut goodOutEnv [OutOp.clip 2]) 1 4
      (by decide) (by decide) (by decide)).2.2.2.2.2.2⟩

/-- C10: whenever the active voice set is empty, unsubscribeOutput with
any source id — zero or an id never produced by subscribeOutput — runs
the full playback teardown: the session is left uninitialized, the
one-shot buffer freed, the voice stopped, and the device closed when the
native close succeeds. -/
theorem c10_unsubscribe_empty_runs_teardown (env : OutEnv) (s : OutState)
    (sid : ℕ) (h : s.outSources = []) :
    unsubscribeOutput env s sid =
      cleanupOutput env { s with outSources := removeAll sid s.outSources } ∧
    (unsubscribeOutput env s sid).outputInitialized = false ∧
    (s.alOutDev = true →
      (unsubscribeOutput env s sid).alMainBuffer = none ∧
      (unsubscribeOutput env s sid).mainPlaying = false ∧
      (env.closeOk = true → (unsubscribeOutput env s sid).alOutDev = false)) := by
  have hrm : removeAll sid s.outSources = [] := by simp [removeAll, h]
  have e := unsubscribeOutput_empty env s sid hrm
  refine ⟨e, ?_, ?_⟩
  · rw [e]
    exact cleanupOutput_not_initialized env _
  · intro hd
    rw [e]
    unfold cleanupOutput
    dsimp only
    rw [if_neg (by simp [hd])]
    by_cases hc : env.closeOk = true
    · rw [if_pos hc]
      exact ⟨rfl, rfl, fun _ => rfl⟩
    · rw [if_neg hc]
      exact ⟨rfl, rfl, fun hcc => absurd hcc hc⟩

/-- Witness for c10_unsubscribe_empty_runs_teardown: tearing down the
session kept initialized for a one-shot clip. -/
theorem c10_witness :
    (runOut goodOutEnv [OutOp.clip 2]).outSources = [] ∧
      (unsubscribeOutput goodOutEnv (runOut goodOutEnv [OutOp.clip 2])
          0).outputInitialized = false :=
  ⟨by decide,
    (c10_unsubscribe_empty_runs_teardown goodOutEnv
      (runOut goodOutEnv [OutOp.clip 2]) 0 (by decide)).2.1⟩

end QTox
